import Mathlib

/-!
Shallow embedding of the Trading-Simulator repository (src/main.py together
with the `Action` enum of src/technicals.py).  Money and prices are modelled
as rationals (`ℚ`), quantities as integers, and Python exceptions as an
explicit error type.  Every mutating `Account` method returns the error that
was raised (if any) TOGETHER with the account state after the call, because
in Python the mutations performed before a `raise` persist in the caller's
object.
-/

namespace TradingSim

/-- `Action` enum of technicals.py. -/
inductive Action where
  | BUY
  | SELL
deriving DecidableEq, Repr

/-- `Status` enum of main.py. -/
inductive Status where
  | UNFILLED
  | PARTIALLY_FILLED
  | FILLED
deriving DecidableEq, Repr

/-- The Python exceptions raised by main.py, by kind. -/
inductive Err where
  | valueError (msg : String)
  | keyError (key : String)
  | lookupError (key : String)
  | zeroDivisionError
deriving DecidableEq, Repr

/-- `STOCK_PRICES` table of main.py. -/
def STOCK_PRICES : List (String × ℚ) := [("AAPL", 200), ("GOOGL", 200), ("MSFT", 400)]

/-- `get_stock_price`: table lookup, `LookupError` when the ticker is absent. -/
def get_stock_price (ticker : String) : Except Err ℚ :=
  match STOCK_PRICES.lookup ticker with
  | some p => .ok p
  | none => .error (.lookupError ticker)

/-- Python `int(x)` on a rational: truncation toward zero. -/
def pyint (x : ℚ) : Int := x.num.tdiv x.den

/-- Dataclass `Order` of main.py (the timestamp field plays no role in any
behaviour and is omitted). -/
structure Order where
  ticker : String
  action : Action
  amount : Int
  price : ℚ
  filled : Int
deriving DecidableEq, Repr

/-- `Order(ticker, action, amount)` construction, with the `__post_init__`
checks: a negative amount is rejected, then the current oracle price is
frozen into the order. -/
def Order.make (ticker : String) (action : Action) (amount : Int) : Except Err Order :=
  if amount < 0 then .error (.valueError "negative order amount")
  else
    match get_stock_price ticker with
    | .error e => .error e
    | .ok p => .ok ⟨ticker, action, amount, p, 0⟩

/-- `Order.remaining`. -/
def Order.remaining (o : Order) : Int := o.amount - o.filled

/-- `Order.size`. -/
def Order.size (o : Order) : ℚ := (o.amount : ℚ) * o.price

/-- `Order.get_size(absval)`. -/
def Order.get_size (o : Order) (absval : Bool) : ℚ :=
  if o.action = Action.BUY ∨ absval = true then o.size else -o.size

/-- `Order.status`. -/
def Order.status (o : Order) : Status :=
  if o.filled = o.amount then .FILLED
  else if 0 < o.filled ∧ o.filled < o.amount then .PARTIALLY_FILLED
  else .UNFILLED

/-- `Order.fill()` with the amount omitted: fill completely. -/
def Order.fill_all (o : Order) : Order := { o with filled := o.amount }

/-- `Order.fill(amount)` with an explicit amount. -/
def Order.fill_amount (o : Order) (amount : Int) : Except Err Order :=
  if amount < 0 then .error (.valueError "fill amount negative")
  else if amount > o.remaining then .error (.valueError "fill exceeds remaining")
  else .ok { o with filled := o.filled + amount }

/-- Dataclass `Position` of main.py. -/
structure Position where
  ticker : String
  qty : Int
  price : ℚ
deriving DecidableEq, Repr

/-- `Position.update(qty, new_price)`.  When `new_price` is `None` the oracle
is consulted (which can raise `LookupError`).  On a positive delta the
weighted-average price is recomputed; Python raises `ZeroDivisionError` when
the denominator is zero. -/
def Position.update (pos : Position) (qty : Int) (new_price : Option ℚ) :
    Except Err Position :=
  match (match new_price with
         | some p => Except.ok p
         | none => get_stock_price pos.ticker) with
  | .error e => .error e
  | .ok np =>
    if 0 < qty then
      if (pos.qty : ℚ) + (qty : ℚ) = 0 then .error .zeroDivisionError
      else
        .ok { pos with
              price := ((pos.qty : ℚ) * pos.price + (qty : ℚ) * np) /
                       ((pos.qty : ℚ) + (qty : ℚ)),
              qty := pos.qty + qty }
    else .ok { pos with qty := pos.qty + qty }

/-- `Position.update_from_order(order)`: applies the order's full amount
(signed by the action) to the position, then marks the order fully filled.
Returns the updated position and order (Python mutates both in place). -/
def Position.update_from_order (pos : Position) (order : Order) :
    Except Err (Position × Order) :=
  match pos.update (if order.action = Action.BUY then order.amount else -order.amount) none with
  | .error e => .error e
  | .ok pos2 => .ok (pos2, order.fill_all)

/-- Dataclass `Trade` of main.py (timestamp omitted as for `Order`). -/
structure Trade where
  order : Order
  entry_price : ℚ
deriving DecidableEq, Repr

/-- `Trade(position, order)` construction with the `__post_init__` check:
raises when `position.qty > order.amount`, otherwise snapshots the
position's average price as the entry price. -/
def Trade.make (position : Position) (order : Order) : Except Err Trade :=
  if position.qty > order.amount then .error (.valueError "trade capture")
  else .ok ⟨order, position.price⟩

/-- `Trade.realized_pnl`. -/
def Trade.realized_pnl (t : Trade) : ℚ :=
  (t.order.price - t.entry_price) * (t.order.amount : ℚ)

/-- `dict` lookup on the ticker-keyed position map, modelled as an
insertion-ordered association list. -/
def lookup_ticker : List (String × Position) → String → Option Position
  | [], _ => none
  | (k, v) :: rest, t => if k = t then some v else lookup_ticker rest t

/-- `dict.setdefault(ticker, pos)`: returns the existing entry, or inserts
`pos` at the end and returns it. -/
def setdefault (l : List (String × Position)) (ticker : String) (pos : Position) :
    Position × List (String × Position) :=
  match lookup_ticker l ticker with
  | some p => (p, l)
  | none => (pos, l ++ [(ticker, pos)])

/-- Writing back an in-place mutation of the Position object stored under
`ticker` (Python aliasing: the dict entry and the local variable are the
same object). -/
def set_position (l : List (String × Position)) (ticker : String) (pos : Position) :
    List (String × Position) :=
  l.map (fun kv => if kv.1 = ticker then (kv.1, pos) else kv)

/-- Dataclass `Account` of main.py. -/
structure Account where
  cash : ℚ
  positions : List (String × Position)
  orders : List Order
  trades : List Trade
deriving DecidableEq, Repr

/-- `Account(starting_balance)`: `__post_init__` rejects a negative starting
balance, then assigns it through the `balance` setter. -/
def Account.make (starting_balance : ℚ) : Except Err Account :=
  if starting_balance < 0 then .error (.valueError "negative funds")
  else if starting_balance < 0 then .error (.valueError "negative balance")
  else .ok ⟨starting_balance, [], [], []⟩

/-- The `balance` property getter. -/
def Account.balance (acc : Account) : ℚ := acc.cash

/-- The `balance` property setter: rejects a negative balance. -/
def Account.set_balance (acc : Account) (amt : ℚ) : Except Err Account :=
  if amt < 0 then .error (.valueError "negative balance")
  else .ok { acc with cash := amt }

/-- `Account.deposit`. -/
def Account.deposit (acc : Account) (amount : ℚ) : Option Err × Account :=
  if amount < 0 then (some (.valueError "negative deposit"), acc)
  else
    match acc.set_balance (acc.balance + amount) with
    | .error e => (some e, acc)
    | .ok a => (none, a)

/-- `Account.withdraw`. -/
def Account.withdraw (acc : Account) (amount : ℚ) : Option Err × Account :=
  if amount > acc.balance then (some (.valueError "overdraw"), acc)
  else if amount < 0 then (some (.valueError "negative withdrawal"), acc)
  else
    match acc.set_balance (acc.balance - amount) with
    | .error e => (some e, acc)
    | .ok a => (none, a)

/-- `Account.realized_pnl`. -/
def Account.realized_pnl (acc : Account) : ℚ :=
  (acc.trades.map Trade.realized_pnl).sum

/-- `Account.clear_filled_orders`. -/
def Account.clear_filled_orders (acc : Account) : Account :=
  { acc with orders := acc.orders.filter (fun o => o.status != Status.FILLED) }

/-- `Account.make_order(ticker, action, qty)`: construct the order, validate
feasibility, and only then append it to the order list. -/
def Account.make_order (acc : Account) (ticker : String) (action : Action) (qty : Int) :
    Except Err Order × Account :=
  match Order.make ticker action qty with
  | .error e => (.error e, acc)
  | .ok order =>
    match action with
    | .BUY =>
      if order.size > acc.balance then (.error (.valueError "insufficient funds"), acc)
      else (.ok order, { acc with orders := acc.orders ++ [order] })
    | .SELL =>
      match lookup_ticker acc.positions ticker with
      | none => (.error (.keyError ticker), acc)
      | some pos =>
        if qty > pos.qty then (.error (.valueError "insufficient holdings"), acc)
        else (.ok order, { acc with orders := acc.orders ++ [order] })

/-- `Account.execute_order(order)` acting on an order value: `setdefault` the
position, apply the order to it, then debit the signed size through the
balance setter.  Returns the (possibly raised) error, the account after the
call, and the (possibly mutated) order object. -/
def Account.execute_order (acc : Account) (order : Order) :
    Option Err × Account × Order :=
  let (position, positions1) := setdefault acc.positions order.ticker ⟨order.ticker, 0, 0⟩
  let acc1 : Account := { acc with positions := positions1 }
  match position.update_from_order order with
  | .error e => (some e, acc1, order)
  | .ok (pos2, order2) =>
    let acc2 : Account := { acc1 with positions := set_position acc1.positions order.ticker pos2 }
    match acc2.set_balance (acc2.balance - order2.get_size false) with
    | .error e => (some e, acc2, order2)
    | .ok acc3 => (none, acc3, order2)

/-- `execute_order` called on the order stored at index `i` of the order
list (Python aliasing: mutations of the order show up in the list). -/
def Account.execute_order_at (acc : Account) (i : Nat) : Option Err × Account :=
  match acc.orders[i]? with
  | none => (none, acc)
  | some o =>
    let r := acc.execute_order o
    (r.1, { r.2.1 with orders := r.2.1.orders.set i r.2.2 })

/-- `Account.buy_stock(ticker, qty)`; `qty = none` models the Python default
`int(balance / price)`. -/
def Account.buy_stock (acc : Account) (ticker : String) (qty : Option Int) :
    Option Err × Account :=
  match (match qty with
         | some q => Except.ok q
         | none =>
           match get_stock_price ticker with
           | .error e => Except.error e
           | .ok p =>
             if p = 0 then Except.error Err.zeroDivisionError
             else Except.ok (pyint (acc.balance / p))) with
  | .error e => (some e, acc)
  | .ok q =>
    match acc.make_order ticker Action.BUY q with
    | (.error e, _) => (some e, acc)
    | (.ok _, acc1) => acc1.execute_order_at (acc1.orders.length - 1)

/-- `Account.sell_stock(ticker, qty)`; `qty = none` models the Python default
of the full current holding.  After executing the order, a `Trade` is
captured from the (already mutated) position and appended; an error raised
by the `Trade` constructor leaves the executed order's effects in place. -/
def Account.sell_stock (acc : Account) (ticker : String) (qty : Option Int) :
    Option Err × Account :=
  match (match qty with
         | some q => Except.ok q
         | none =>
           match lookup_ticker acc.positions ticker with
           | some pos => Except.ok pos.qty
           | none => Except.error (Err.keyError ticker)) with
  | .error e => (some e, acc)
  | .ok q =>
    match acc.make_order ticker Action.SELL q with
    | (.error e, _) => (some e, acc)
    | (.ok order, acc1) =>
      let i := acc1.orders.length - 1
      let r := acc1.execute_order order
      let acc2 : Account := { r.2.1 with orders := r.2.1.orders.set i r.2.2 }
      match r.1 with
      | some e => (some e, acc2)
      | none =>
        match lookup_ticker acc2.positions ticker with
        | none => (some (Err.keyError ticker), acc2)
        | some pos =>
          match Trade.make pos r.2.2 with
          | .error e => (some e, acc2)
          | .ok trade => (none, { acc2 with trades := acc2.trades ++ [trade] })

/-- The loop of `Account.execute_pending_orders`, by index; the list keeps
its length throughout, so the initial length serves as fuel. -/
def Account.execute_pending_from (acc : Account) (i : Nat) : Nat → Option Err × Account
  | 0 => (none, acc)
  | fuel + 1 =>
    if i < acc.orders.length then
      match acc.execute_order_at i with
      | (some e, acc2) => (some e, acc2)
      | (none, acc2) => acc2.execute_pending_from (i + 1) fuel
    else (none, acc)

/-- `Account.execute_pending_orders`: execute every order in list order; an
exception aborts the loop, leaving earlier executions in place. -/
def Account.execute_pending_orders (acc : Account) : Option Err × Account :=
  acc.execute_pending_from 0 acc.orders.length

/-- A deposit or withdrawal request, for reasoning about arbitrary
sequences of the two cash operations. -/
inductive CashOp where
  | dep (amount : ℚ)
  | wdr (amount : ℚ)

/-- Apply one cash operation (its error, if raised, is dropped: the caller's
account keeps the state after the call either way). -/
def Account.apply_cash_op (acc : Account) (op : CashOp) : Option Err × Account :=
  match op with
  | .dep a => acc.deposit a
  | .wdr a => acc.withdraw a

/-- Run a sequence of deposits/withdrawals, keeping the post-call state of
each (successful or failing) call. -/
def Account.run_cash_ops (acc : Account) (ops : List CashOp) : Account :=
  ops.foldl (fun a op => (a.apply_cash_op op).2) acc

/-- Concrete account for the C1 scenario: starting balance 200. -/
def c1_acc0 : Account := ⟨200, [], [], []⟩

/-- C1 scenario after placing a BUY order for 1 AAPL (costing 200). -/
def c1_acc1 : Account := ⟨200, [], [⟨"AAPL", Action.BUY, 1, 200, 0⟩], []⟩

/-- C1 scenario after then withdrawing 100 (balance drops to 100). -/
def c1_acc2 : Account := ⟨100, [], [⟨"AAPL", Action.BUY, 1, 200, 0⟩], []⟩

/-- C1 scenario after `execute_pending_orders` raised: the AAPL position was
created and updated, the order marked filled, the cash unchanged. -/
def c1_acc3 : Account :=
  ⟨100, [("AAPL", ⟨"AAPL", 1, 200⟩)], [⟨"AAPL", Action.BUY, 1, 200, 1⟩], []⟩

/-- Concrete account for the C2 scenario: 1000 cash, then 3 AAPL bought. -/
def c2_acc : Account :=
  ⟨400, [("AAPL", ⟨"AAPL", 3, 200⟩)], [⟨"AAPL", Action.BUY, 3, 200, 3⟩], []⟩

/-- C2 scenario: the account state after the failed sale of 1 of 3 shares:
position and cash mutated, no trade recorded. -/
def c2_after : Account :=
  ⟨600, [("AAPL", ⟨"AAPL", 2, 200⟩)],
   [⟨"AAPL", Action.BUY, 3, 200, 3⟩, ⟨"AAPL", Action.SELL, 1, 200, 1⟩], []⟩

/-- A partially filled order (1 of 2 filled) for the C9 counterexample. -/
def c9_o : Order := ⟨"AAPL", Action.BUY, 2, 200, 1⟩

section AssocListLemmas

lemma lookup_append_none {l l2 : List (String × Position)} {t : String}
    (h : lookup_ticker l t = none) :
    lookup_ticker (l ++ l2) t = lookup_ticker l2 t := by
  induction l with
  | nil => simp
  | cons kv rest ih =>
    rw [List.cons_append, lookup_ticker]
    rw [lookup_ticker] at h
    split at h
    · exact absurd h (by simp)
    · rw [if_neg (by assumption)]; exact ih h

lemma lookup_append_some {l l2 : List (String × Position)} {t : String} {pos : Position}
    (h : lookup_ticker l t = some pos) :
    lookup_ticker (l ++ l2) t = some pos := by
  induction l with
  | nil => simp [lookup_ticker] at h
  | cons kv rest ih =>
    rw [List.cons_append, lookup_ticker]
    rw [lookup_ticker] at h
    split at h
    · rw [if_pos (by assumption)]; exact h
    · rw [if_neg (by assumption)]; exact ih h

lemma set_position_of_none {l : List (String × Position)} {t : String} (pos : Position)
    (h : lookup_ticker l t = none) :
    set_position l t pos = l := by
  induction l with
  | nil => simp [set_position]
  | cons kv rest ih =>
    rw [lookup_ticker] at h
    split at h
    · exact absurd h (by simp)
    · rw [set_position, List.map_cons, if_neg (by assumption)]
      have := ih h
      rw [set_position] at this
      rw [this]

lemma lookup_set_self {l : List (String × Position)} {t : String} {pos : Position}
    (pos2 : Position) (h : lookup_ticker l t = some pos) :
    lookup_ticker (set_position l t pos2) t = some pos2 := by
  induction l with
  | nil => simp [lookup_ticker] at h
  | cons kv rest ih =>
    rw [lookup_ticker] at h
    rw [set_position, List.map_cons]
    split at h
    · rw [if_pos (by assumption), lookup_ticker, if_pos (by assumption)]
    · rw [if_neg (by assumption), lookup_ticker, if_neg (by assumption)]
      exact ih h

lemma lookup_set_other {l : List (String × Position)} {t t2 : String}
    (pos2 : Position) (h : t2 ≠ t) :
    lookup_ticker (set_position l t pos2) t2 = lookup_ticker l t2 := by
  induction l with
  | nil => rfl
  | cons kv rest ih =>
    obtain ⟨k, v⟩ := kv
    show lookup_ticker ((if k = t then (k, pos2) else (k, v)) :: set_position rest t pos2) t2
        = lookup_ticker ((k, v) :: rest) t2
    by_cases hk : k = t
    · have hne : ¬ k = t2 := fun hh => h (hh ▸ hk)
      rw [if_pos hk, lookup_ticker, lookup_ticker, if_neg hne, if_neg hne]
      exact ih
    · rw [if_neg hk, lookup_ticker, lookup_ticker]
      by_cases hk2 : k = t2
      · rw [if_pos hk2, if_pos hk2]
      · rw [if_neg hk2, if_neg hk2]; exact ih

end AssocListLemmas

section ListIndexLemmas

lemma getElem?_concat {α : Type} (l : List α) (x : α) : (l ++ [x])[l.length]? = some x := by
  induction l with
  | nil => rfl
  | cons a rest ih => simp [ih]

lemma set_concat {α : Type} (l : List α) (x y : α) : (l ++ [x]).set l.length y = l ++ [y] := by
  induction l with
  | nil => rfl
  | cons a rest ih => simp [ih]

end ListIndexLemmas

/-- Python `int()` of a rational in `[0, 1)` is `0`. -/
lemma pyint_eq_zero {x : ℚ} (h0 : 0 ≤ x) (h1 : x < 1) : pyint x = 0 := by
  have hnum : 0 ≤ x.num := Rat.num_nonneg.mpr h0
  have hden : (0 : Int) ≤ (x.den : Int) := Int.ofNat_nonneg _
  rw [pyint, Int.tdiv_eq_ediv hnum hden, ← Rat.floor_def]
  exact Int.floor_eq_zero_iff.mpr ⟨h0, h1⟩

section ExecuteOrderLemmas

lemma execute_order_sell_ok (acc : Account) (o : Order) (pos : Position) (np : ℚ)
    (ha : o.action = Action.SELL)
    (hlk : lookup_ticker acc.positions o.ticker = some pos)
    (hnp : get_stock_price pos.ticker = .ok np)
    (hq : 0 ≤ o.amount)
    (hbal : ¬ acc.cash + (o.amount : ℚ) * o.price < 0) :
    acc.execute_order o =
      (none,
       { acc with
         positions := set_position acc.positions o.ticker ⟨pos.ticker, pos.qty - o.amount, pos.price⟩,
         cash := acc.cash + (o.amount : ℚ) * o.price },
       o.fill_all) := by
  have hnotpos : ¬ (0 : Int) < -o.amount := by omega
  have hsub : pos.qty + -o.amount = pos.qty - o.amount := by omega
  have hdelta : (if o.action = Action.BUY then o.amount else -o.amount) = -o.amount := by
    rw [ha]; simp
  have hsize : o.fill_all.get_size false = -((o.amount : ℚ) * o.price) := by
    simp [Order.fill_all, Order.get_size, Order.size, ha]
  have hcash : acc.cash - -((o.amount : ℚ) * o.price) = acc.cash + (o.amount : ℚ) * o.price := by
    ring
  rw [Account.execute_order, setdefault, hlk]
  simp only [Position.update_from_order, hdelta, Position.update, hnp, if_neg hnotpos]
  simp only [hsize, Account.balance, hcash, Account.set_balance, if_neg hbal]
  rw [hsub]

lemma set_position_concat {l : List (String × Position)} {t : String} (pos0 pos2 : Position)
    (h : lookup_ticker l t = none) :
    set_position (l ++ [(t, pos0)]) t pos2 = l ++ [(t, pos2)] := by
  have h1 : set_position l t pos2 = l := set_position_of_none pos2 h
  rw [set_position, List.map_append]
  rw [set_position] at h1
  rw [h1]
  simp

lemma execute_order_buy_pos_ok (acc : Account) (o : Order) (pos : Position) (np : ℚ)
    (ha : o.action = Action.BUY)
    (hlk : lookup_ticker acc.positions o.ticker = some pos)
    (hnp : get_stock_price pos.ticker = .ok np)
    (h1 : 1 ≤ o.amount) (hq0 : 0 ≤ pos.qty)
    (hbal : ¬ acc.cash - (o.amount : ℚ) * o.price < 0) :
    acc.execute_order o =
      (none,
       { acc with
         positions := set_position acc.positions o.ticker
           ⟨pos.ticker, pos.qty + o.amount,
            ((pos.qty : ℚ) * pos.price + (o.amount : ℚ) * np) /
              ((pos.qty : ℚ) + (o.amount : ℚ))⟩,
         cash := acc.cash - (o.amount : ℚ) * o.price },
       o.fill_all) := by
  have hpos : (0 : Int) < o.amount := by omega
  have hzi : (0 : Int) < pos.qty + o.amount := by omega
  have hden : ¬ ((pos.qty : ℚ) + (o.amount : ℚ) = 0) := by
    have h2 : (0 : ℚ) < ((pos.qty + o.amount : Int) : ℚ) := by exact_mod_cast hzi
    push_cast at h2
    linarith
  have hdelta : (if o.action = Action.BUY then o.amount else -o.amount) = o.amount := by
    rw [ha]; simp
  have hsize : o.fill_all.get_size false = (o.amount : ℚ) * o.price := by
    simp [Order.fill_all, Order.get_size, Order.size, ha]
  rw [Account.execute_order, setdefault, hlk]
  simp only [Position.update_from_order, hdelta, Position.update, hnp, if_pos hpos,
    if_neg hden]
  simp only [hsize, Account.balance, Account.set_balance, if_neg hbal]

lemma execute_order_buy_new_ok (acc : Account) (o : Order) (np : ℚ)
    (ha : o.action = Action.BUY)
    (hlk : lookup_ticker acc.positions o.ticker = none)
    (hnp : get_stock_price o.ticker = .ok np)
    (h1 : 1 ≤ o.amount)
    (hbal : ¬ acc.cash - (o.amount : ℚ) * o.price < 0) :
    acc.execute_order o =
      (none,
       { acc with
         positions := acc.positions ++ [(o.ticker, ⟨o.ticker, o.amount, np⟩)],
         cash := acc.cash - (o.amount : ℚ) * o.price },
       o.fill_all) := by
  have hpos : (0 : Int) < o.amount := by omega
  have ha0 : (o.amount : ℚ) ≠ 0 := by
    have : (0 : ℚ) < ((o.amount : Int) : ℚ) := by exact_mod_cast hpos
    linarith
  have hden : ¬ ((((0 : Int) : ℚ)) + (o.amount : ℚ) = 0) := by
    push_cast
    simpa using ha0
  have hdelta : (if o.action = Action.BUY then o.amount else -o.amount) = o.amount := by
    rw [ha]; simp
  have hsize : o.fill_all.get_size false = (o.amount : ℚ) * o.price := by
    simp [Order.fill_all, Order.get_size, Order.size, ha]
  have hprice : (((0 : Int) : ℚ) * 0 + (o.amount : ℚ) * np) / (((0 : Int) : ℚ) + (o.amount : ℚ))
      = np := by
    push_cast
    field_simp
  rw [Account.execute_order, setdefault, hlk]
  simp only [Position.update_from_order, hdelta, Position.update, hnp, if_pos hpos,
    if_neg hden]
  simp only [hprice, hsize, Account.balance, Account.set_balance, if_neg hbal]
  rw [set_position_concat _ _ hlk]
  simp

lemma execute_order_buy_new_err_balance (acc : Account) (o : Order) (np : ℚ)
    (ha : o.action = Action.BUY)
    (hlk : lookup_ticker acc.positions o.ticker = none)
    (hnp : get_stock_price o.ticker = .ok np)
    (h1 : 1 ≤ o.amount)
    (hbal : acc.cash - (o.amount : ℚ) * o.price < 0) :
    acc.execute_order o =
      (some (Err.valueError "negative balance"),
       { acc with positions := acc.positions ++ [(o.ticker, ⟨o.ticker, o.amount, np⟩)] },
       o.fill_all) := by
  have hpos : (0 : Int) < o.amount := by omega
  have ha0 : (o.amount : ℚ) ≠ 0 := by
    have : (0 : ℚ) < ((o.amount : Int) : ℚ) := by exact_mod_cast hpos
    linarith
  have hden : ¬ ((((0 : Int) : ℚ)) + (o.amount : ℚ) = 0) := by
    push_cast
    simpa using ha0
  have hdelta : (if o.action = Action.BUY then o.amount else -o.amount) = o.amount := by
    rw [ha]; simp
  have hsize : o.fill_all.get_size false = (o.amount : ℚ) * o.price := by
    simp [Order.fill_all, Order.get_size, Order.size, ha]
  have hprice : (((0 : Int) : ℚ) * 0 + (o.amount : ℚ) * np) / (((0 : Int) : ℚ) + (o.amount : ℚ))
      = np := by
    push_cast
    field_simp
  rw [Account.execute_order, setdefault, hlk]
  simp only [Position.update_from_order, hdelta, Position.update, hnp, if_pos hpos,
    if_neg hden]
  simp only [hprice, hsize, Account.balance, Account.set_balance, if_pos hbal]
  rw [set_position_concat _ _ hlk]
  simp

lemma execute_order_buy_zero_pos_ok (acc : Account) (o : Order) (pos : Position) (np : ℚ)
    (ha : o.action = Action.BUY) (h0 : o.amount = 0)
    (hlk : lookup_ticker acc.positions o.ticker = some pos)
    (hnp : get_stock_price pos.ticker = .ok np)
    (hc0 : 0 ≤ acc.cash) :
    acc.execute_order o =
      (none,
       { acc with positions := set_position acc.positions o.ticker pos },
       o.fill_all) := by
  have hnotpos : ¬ (0 : Int) < o.amount := by omega
  have hdelta : (if o.action = Action.BUY then o.amount else -o.amount) = o.amount := by
    rw [ha]; simp
  have hq : pos.qty + o.amount = pos.qty := by omega
  have hsize : o.fill_all.get_size false = 0 := by
    simp [Order.fill_all, Order.get_size, Order.size, ha, h0]
  have hbal : ¬ acc.cash - (0 : ℚ) < 0 := by simp [hc0, not_lt]
  rw [Account.execute_order, setdefault, hlk]
  simp only [Position.update_from_order, hdelta, Position.update, hnp, if_neg hnotpos]
  simp only [hsize, Account.balance, Account.set_balance, if_neg hbal, hq]
  simp

lemma execute_order_buy_zero_new_ok (acc : Account) (o : Order) (np : ℚ)
    (ha : o.action = Action.BUY) (h0 : o.amount = 0)
    (hlk : lookup_ticker acc.positions o.ticker = none)
    (hnp : get_stock_price o.ticker = .ok np)
    (hc0 : 0 ≤ acc.cash) :
    acc.execute_order o =
      (none,
       { acc with positions := acc.positions ++ [(o.ticker, ⟨o.ticker, 0, 0⟩)] },
       o.fill_all) := by
  have hnotpos : ¬ (0 : Int) < o.amount := by omega
  have hdelta : (if o.action = Action.BUY then o.amount else -o.amount) = o.amount := by
    rw [ha]; simp
  have hsize : o.fill_all.get_size false = 0 := by
    simp [Order.fill_all, Order.get_size, Order.size, ha, h0]
  have hbal : ¬ acc.cash - (0 : ℚ) < 0 := by simp [hc0, not_lt]
  rw [Account.execute_order, setdefault, hlk]
  simp only [Position.update_from_order, hdelta, Position.update, hnp, if_neg hnotpos]
  simp only [hsize, Account.balance, Account.set_balance, if_neg hbal]
  rw [show (0 : Int) + o.amount = 0 by omega]
  rw [set_position_concat _ _ hlk]
  simp

end ExecuteOrderLemmas


section TradePathLemmas

lemma make_order_buy_ok (acc : Account) (t : String) (p : ℚ) (q : Int)
    (hp : get_stock_price t = .ok p) (hq : 0 ≤ q)
    (haff : ¬ ((q : ℚ) * p > acc.cash)) :
    acc.make_order t Action.BUY q =
      (.ok ⟨t, Action.BUY, q, p, 0⟩,
       { acc with orders := acc.orders ++ [⟨t, Action.BUY, q, p, 0⟩] }) := by
  have hnq : ¬ q < 0 := by omega
  rw [Account.make_order, Order.make, if_neg hnq, hp]
  simp only [Order.size, Account.balance]
  rw [if_neg haff]

lemma buy_stock_eq_execute (acc acc1 : Account) (t : String) (q : Int) (o : Order)
    (h : acc.make_order t Action.BUY q = (.ok o, acc1)) :
    acc.buy_stock t (some q) = acc1.execute_order_at (acc1.orders.length - 1) := by
  rw [Account.buy_stock, h]

lemma execute_order_at_concat (c : ℚ) (P : List (String × Position)) (O : List Order)
    (T : List Trade) (o : Order) :
    Account.execute_order_at ⟨c, P, O ++ [o], T⟩ O.length
      = ((Account.execute_order ⟨c, P, O ++ [o], T⟩ o).1,
         Account.mk (Account.execute_order ⟨c, P, O ++ [o], T⟩ o).2.1.cash
           (Account.execute_order ⟨c, P, O ++ [o], T⟩ o).2.1.positions
           ((Account.execute_order ⟨c, P, O ++ [o], T⟩ o).2.1.orders.set O.length
             (Account.execute_order ⟨c, P, O ++ [o], T⟩ o).2.2)
           (Account.execute_order ⟨c, P, O ++ [o], T⟩ o).2.1.trades) := by
  rw [Account.execute_order_at.eq_def]
  rw [getElem?_concat]

lemma make_order_sell_ok (acc : Account) (t : String) (p : ℚ) (q : Int) (pos : Position)
    (hp : get_stock_price t = .ok p) (hq : 0 ≤ q)
    (hlk : lookup_ticker acc.positions t = some pos)
    (hqh : ¬ q > pos.qty) :
    acc.make_order t Action.SELL q =
      (.ok ⟨t, Action.SELL, q, p, 0⟩,
       { acc with orders := acc.orders ++ [⟨t, Action.SELL, q, p, 0⟩] }) := by
  have hnq : ¬ q < 0 := by omega
  rw [Account.make_order, Order.make, if_neg hnq, hp]
  simp only [hlk]
  rw [if_neg hqh]

lemma buy_stock_new_ok (acc : Account) (t : String) (p : ℚ) (q : Int)
    (hp : get_stock_price t = .ok p)
    (hlk : lookup_ticker acc.positions t = none)
    (hq : 1 ≤ q)
    (haff : (q : ℚ) * p ≤ acc.cash) :
    acc.buy_stock t (some q) =
      (none,
       ⟨acc.cash - (q : ℚ) * p,
        acc.positions ++ [(t, ⟨t, q, p⟩)],
        acc.orders ++ [⟨t, Action.BUY, q, p, q⟩],
        acc.trades⟩) := by
  have hq' : 0 ≤ q := by omega
  have hgt : ¬ ((q : ℚ) * p > acc.cash) := not_lt.mpr haff
  have hbal : ¬ acc.cash - (q : ℚ) * p < 0 := by
    rw [not_lt]
    linarith
  rw [buy_stock_eq_execute acc _ t q _ (make_order_buy_ok acc t p q hp hq' hgt)]
  rw [show ({ acc with orders := acc.orders ++ [⟨t, Action.BUY, q, p, 0⟩] } : Account).orders.length - 1
        = acc.orders.length from by simp]
  rw [execute_order_at_concat]
  have hex := execute_order_buy_new_ok ⟨acc.cash, acc.positions, acc.orders ++ [(⟨t, Action.BUY, q, p, 0⟩ : Order)], acc.trades⟩ ⟨t, Action.BUY, q, p, 0⟩ p rfl hlk hp hq hbal
  rw [hex]
  simp only [Order.fill_all]
  rw [set_concat]

lemma buy_stock_pos_ok (acc : Account) (t : String) (p np : ℚ) (q : Int) (pos : Position)
    (hp : get_stock_price t = .ok p)
    (hlk : lookup_ticker acc.positions t = some pos)
    (hnp : get_stock_price pos.ticker = .ok np)
    (hq : 1 ≤ q) (hq0 : 0 ≤ pos.qty)
    (haff : (q : ℚ) * p ≤ acc.cash) :
    acc.buy_stock t (some q) =
      (none,
       ⟨acc.cash - (q : ℚ) * p,
        set_position acc.positions t
          ⟨pos.ticker, pos.qty + q,
           ((pos.qty : ℚ) * pos.price + (q : ℚ) * np) / ((pos.qty : ℚ) + (q : ℚ))⟩,
        acc.orders ++ [⟨t, Action.BUY, q, p, q⟩],
        acc.trades⟩) := by
  have hq' : 0 ≤ q := by omega
  have hgt : ¬ ((q : ℚ) * p > acc.cash) := not_lt.mpr haff
  have hbal : ¬ acc.cash - (q : ℚ) * p < 0 := by
    rw [not_lt]
    linarith
  rw [buy_stock_eq_execute acc _ t q _ (make_order_buy_ok acc t p q hp hq' hgt)]
  rw [show ({ acc with orders := acc.orders ++ [⟨t, Action.BUY, q, p, 0⟩] } : Account).orders.length - 1
        = acc.orders.length from by simp]
  rw [execute_order_at_concat]
  have hex := execute_order_buy_pos_ok
    ⟨acc.cash, acc.positions, acc.orders ++ [(⟨t, Action.BUY, q, p, 0⟩ : Order)], acc.trades⟩
    ⟨t, Action.BUY, q, p, 0⟩ pos np rfl hlk hnp hq hq0 hbal
  rw [hex]
  simp only [Order.fill_all]
  rw [set_concat]

lemma buy_stock_none_eq (acc : Account) (t : String) (p : ℚ)
    (hp : get_stock_price t = .ok p) (hpne : ¬ p = 0) :
    acc.buy_stock t none = acc.buy_stock t (some (pyint (acc.balance / p))) := by
  rw [Account.buy_stock, Account.buy_stock, hp]
  dsimp only
  rw [if_neg hpne]

lemma buy_stock_zero_pos_ok (acc : Account) (t : String) (p np : ℚ) (pos : Position)
    (hp : get_stock_price t = .ok p)
    (hlk : lookup_ticker acc.positions t = some pos)
    (hnp : get_stock_price pos.ticker = .ok np)
    (hc0 : 0 ≤ acc.cash) :
    acc.buy_stock t (some 0) =
      (none,
       ⟨acc.cash, set_position acc.positions t pos,
        acc.orders ++ [⟨t, Action.BUY, 0, p, 0⟩], acc.trades⟩) := by
  have hgt : ¬ (((0 : Int) : ℚ) * p > acc.cash) := by
    push_cast
    simpa using hc0
  rw [buy_stock_eq_execute acc _ t 0 _ (make_order_buy_ok acc t p 0 hp (le_refl 0) hgt)]
  rw [show ({ acc with orders := acc.orders ++ [⟨t, Action.BUY, 0, p, 0⟩] } : Account).orders.length - 1
        = acc.orders.length from by simp]
  rw [execute_order_at_concat]
  have hex := execute_order_buy_zero_pos_ok
    ⟨acc.cash, acc.positions, acc.orders ++ [(⟨t, Action.BUY, 0, p, 0⟩ : Order)], acc.trades⟩
    ⟨t, Action.BUY, 0, p, 0⟩ pos np rfl rfl hlk hnp hc0
  rw [hex]
  simp only [Order.fill_all]
  rw [set_concat]

lemma buy_stock_zero_new_ok (acc : Account) (t : String) (p : ℚ)
    (hp : get_stock_price t = .ok p)
    (hlk : lookup_ticker acc.positions t = none)
    (hc0 : 0 ≤ acc.cash) :
    acc.buy_stock t (some 0) =
      (none,
       ⟨acc.cash, acc.positions ++ [(t, ⟨t, 0, 0⟩)],
        acc.orders ++ [⟨t, Action.BUY, 0, p, 0⟩], acc.trades⟩) := by
  have hgt : ¬ (((0 : Int) : ℚ) * p > acc.cash) := by
    push_cast
    simpa using hc0
  rw [buy_stock_eq_execute acc _ t 0 _ (make_order_buy_ok acc t p 0 hp (le_refl 0) hgt)]
  rw [show ({ acc with orders := acc.orders ++ [⟨t, Action.BUY, 0, p, 0⟩] } : Account).orders.length - 1
        = acc.orders.length from by simp]
  rw [execute_order_at_concat]
  have hex := execute_order_buy_zero_new_ok
    ⟨acc.cash, acc.positions, acc.orders ++ [(⟨t, Action.BUY, 0, p, 0⟩ : Order)], acc.trades⟩
    ⟨t, Action.BUY, 0, p, 0⟩ p rfl rfl hlk hp hc0
  rw [hex]
  simp only [Order.fill_all]
  rw [set_concat]

lemma sell_stock_eq_execute (acc acc1 : Account) (t : String) (q : Int) (o : Order)
    (hmk : acc.make_order t Action.SELL q = (.ok o, acc1)) :
    acc.sell_stock t (some q) =
      (match (acc1.execute_order o).1 with
       | some e =>
         (some e,
          Account.mk (acc1.execute_order o).2.1.cash (acc1.execute_order o).2.1.positions
            ((acc1.execute_order o).2.1.orders.set (acc1.orders.length - 1)
              (acc1.execute_order o).2.2)
            (acc1.execute_order o).2.1.trades)
       | none =>
         match lookup_ticker (acc1.execute_order o).2.1.positions t with
         | none =>
           (some (Err.keyError t),
            Account.mk (acc1.execute_order o).2.1.cash (acc1.execute_order o).2.1.positions
              ((acc1.execute_order o).2.1.orders.set (acc1.orders.length - 1)
                (acc1.execute_order o).2.2)
              (acc1.execute_order o).2.1.trades)
         | some pos =>
           match Trade.make pos (acc1.execute_order o).2.2 with
           | .error e =>
             (some e,
              Account.mk (acc1.execute_order o).2.1.cash (acc1.execute_order o).2.1.positions
                ((acc1.execute_order o).2.1.orders.set (acc1.orders.length - 1)
                  (acc1.execute_order o).2.2)
                (acc1.execute_order o).2.1.trades)
           | .ok trade =>
             (none,
              Account.mk (acc1.execute_order o).2.1.cash (acc1.execute_order o).2.1.positions
                ((acc1.execute_order o).2.1.orders.set (acc1.orders.length - 1)
                  (acc1.execute_order o).2.2)
                ((acc1.execute_order o).2.1.trades ++ [trade]))) := by
  rw [Account.sell_stock, hmk]

lemma sell_stock_some_ok (acc : Account) (t : String) (p np : ℚ) (q : Int) (pos : Position)
    (hp : get_stock_price t = .ok p)
    (hlk : lookup_ticker acc.positions t = some pos)
    (hnp : get_stock_price pos.ticker = .ok np)
    (hq : 0 ≤ q) (hqh : ¬ q > pos.qty)
    (hbal : ¬ acc.cash + (q : ℚ) * p < 0)
    (htr : ¬ pos.qty - q > q) :
    acc.sell_stock t (some q) =
      (none,
       ⟨acc.cash + (q : ℚ) * p,
        set_position acc.positions t ⟨pos.ticker, pos.qty - q, pos.price⟩,
        acc.orders ++ [⟨t, Action.SELL, q, p, q⟩],
        acc.trades ++ [⟨⟨t, Action.SELL, q, p, q⟩, pos.price⟩]⟩) := by
  rw [sell_stock_eq_execute acc _ t q _ (make_order_sell_ok acc t p q pos hp hq hlk hqh)]
  have hex := execute_order_sell_ok
    ⟨acc.cash, acc.positions, acc.orders ++ [(⟨t, Action.SELL, q, p, 0⟩ : Order)], acc.trades⟩
    ⟨t, Action.SELL, q, p, 0⟩ pos np rfl hlk hnp hq hbal
  rw [hex]
  dsimp only [Order.fill_all]
  rw [lookup_set_self ⟨pos.ticker, pos.qty - q, pos.price⟩ hlk]
  dsimp only
  rw [Trade.make, if_neg (show ¬ pos.qty - q > q from htr)]
  dsimp only
  rw [show ((acc.orders ++ [(⟨t, Action.SELL, q, p, 0⟩ : Order)]).length - 1) = acc.orders.length
        from by simp]
  rw [set_concat]

lemma order_make_neg_err (t : String) (a : Action) (q : Int) (hq : q < 0) :
    Order.make t a q = .error (.valueError "negative order amount") := by
  rw [Order.make, if_pos hq]

lemma order_make_lookup_err (t : String) (a : Action) (q : Int) (e : Err) (hq : ¬ q < 0)
    (hgp : get_stock_price t = .error e) :
    Order.make t a q = .error e := by
  rw [Order.make, if_neg hq, hgp]

lemma make_order_err_of_order (acc : Account) (t : String) (a : Action) (q : Int) (e : Err)
    (h : Order.make t a q = .error e) :
    acc.make_order t a q = (.error e, acc) := by
  rw [Account.make_order, h]

lemma make_order_buy_err_funds (acc : Account) (t : String) (p : ℚ) (q : Int)
    (hp : get_stock_price t = .ok p) (hq : ¬ q < 0)
    (hgt : (q : ℚ) * p > acc.cash) :
    acc.make_order t Action.BUY q = (.error (.valueError "insufficient funds"), acc) := by
  rw [Account.make_order, Order.make, if_neg hq, hp]
  dsimp only [Order.size, Account.balance]
  rw [if_pos hgt]

lemma make_order_sell_err_nopos (acc : Account) (t : String) (p : ℚ) (q : Int)
    (hp : get_stock_price t = .ok p) (hq : ¬ q < 0)
    (hlk : lookup_ticker acc.positions t = none) :
    acc.make_order t Action.SELL q = (.error (.keyError t), acc) := by
  rw [Account.make_order, Order.make, if_neg hq, hp]
  dsimp only
  rw [hlk]

lemma make_order_sell_err_holdings (acc : Account) (t : String) (p : ℚ) (q : Int)
    (pos : Position)
    (hp : get_stock_price t = .ok p) (hq : ¬ q < 0)
    (hlk : lookup_ticker acc.positions t = some pos)
    (hgt : q > pos.qty) :
    acc.make_order t Action.SELL q = (.error (.valueError "insufficient holdings"), acc) := by
  rw [Account.make_order, Order.make, if_neg hq, hp]
  dsimp only
  rw [hlk]
  dsimp only
  rw [if_pos hgt]

lemma execute_order_sell_fst_err_price (acc : Account) (o : Order) (pos : Position) (e : Err)
    (hlk : lookup_ticker acc.positions o.ticker = some pos)
    (hgp : get_stock_price pos.ticker = .error e) :
    (acc.execute_order o).1 = some e := by
  rw [Account.execute_order, setdefault, hlk]
  simp only [Position.update_from_order, Position.update, hgp]

lemma execute_order_sell_fst_err_balance (acc : Account) (o : Order) (pos : Position) (np : ℚ)
    (ha : o.action = Action.SELL)
    (hlk : lookup_ticker acc.positions o.ticker = some pos)
    (hnp : get_stock_price pos.ticker = .ok np)
    (hq : 0 ≤ o.amount)
    (hbal : acc.cash + (o.amount : ℚ) * o.price < 0) :
    (acc.execute_order o).1 = some (Err.valueError "negative balance") := by
  have hnotpos : ¬ (0 : Int) < -o.amount := by omega
  have hdelta : (if o.action = Action.BUY then o.amount else -o.amount) = -o.amount := by
    rw [ha]; simp
  have hsize : o.fill_all.get_size false = -((o.amount : ℚ) * o.price) := by
    simp [Order.fill_all, Order.get_size, Order.size, ha]
  have hcash : acc.cash - -((o.amount : ℚ) * o.price) = acc.cash + (o.amount : ℚ) * o.price := by
    ring
  rw [Account.execute_order, setdefault, hlk]
  simp only [Position.update_from_order, hdelta, Position.update, hnp, if_neg hnotpos]
  simp only [hsize, Account.balance, hcash, Account.set_balance, if_pos hbal]

lemma sell_stock_fst_of_mk_err (acc acc3 : Account) (t : String) (q : Int) (e : Err)
    (hmk : acc.make_order t Action.SELL q = (.error e, acc3)) :
    acc.sell_stock t (some q) = (some e, acc) := by
  rw [Account.sell_stock]
  dsimp only
  rw [hmk]

lemma sell_stock_err_of_execute (acc acc1 : Account) (t : String) (q : Int) (o : Order) (e : Err)
    (hmk : acc.make_order t Action.SELL q = (.ok o, acc1))
    (he : (acc1.execute_order o).1 = some e) :
    (acc.sell_stock t (some q)).1 = some e := by
  rw [sell_stock_eq_execute acc acc1 t q o hmk, he]

lemma sell_stock_none_eq (acc : Account) (t : String) (pos : Position)
    (hlk : lookup_ticker acc.positions t = some pos) :
    acc.sell_stock t none = acc.sell_stock t (some pos.qty) := by
  rw [Account.sell_stock, Account.sell_stock, hlk]

lemma sell_stock_trade_capture (acc : Account) (t : String) (p np : ℚ) (q : Int)
    (pos : Position)
    (hp : get_stock_price t = .ok p)
    (hlk : lookup_ticker acc.positions t = some pos)
    (hnp : get_stock_price pos.ticker = .ok np)
    (hq : 0 ≤ q) (hqh : ¬ q > pos.qty)
    (hbal : ¬ acc.cash + (q : ℚ) * p < 0)
    (htr : pos.qty - q > q) :
    acc.sell_stock t (some q) =
      (some (Err.valueError "trade capture"),
       ⟨acc.cash + (q : ℚ) * p,
        set_position acc.positions t ⟨pos.ticker, pos.qty - q, pos.price⟩,
        acc.orders ++ [⟨t, Action.SELL, q, p, q⟩],
        acc.trades⟩) := by
  rw [sell_stock_eq_execute acc _ t q _ (make_order_sell_ok acc t p q pos hp hq hlk hqh)]
  have hex := execute_order_sell_ok
    ⟨acc.cash, acc.positions, acc.orders ++ [(⟨t, Action.SELL, q, p, 0⟩ : Order)], acc.trades⟩
    ⟨t, Action.SELL, q, p, 0⟩ pos np rfl hlk hnp hq hbal
  rw [hex]
  dsimp only [Order.fill_all]
  rw [lookup_set_self ⟨pos.ticker, pos.qty - q, pos.price⟩ hlk]
  dsimp only
  rw [Trade.make, if_pos (show pos.qty - q > q from htr)]
  dsimp only
  rw [show ((acc.orders ++ [(⟨t, Action.SELL, q, p, 0⟩ : Order)]).length - 1) = acc.orders.length
        from by simp]
  rw [set_concat]

lemma sell_stock_success_inv (acc acc2 : Account) (t : String) (qv : Int) (pos : Position)
    (hlk : lookup_ticker acc.positions t = some pos)
    (hsell : acc.sell_stock t (some qv) = (none, acc2)) :
    ∃ tr : Trade, acc2.trades = acc.trades ++ [tr] ∧ tr.entry_price = pos.price := by
  by_cases hq : qv < 0
  · rw [sell_stock_fst_of_mk_err acc acc t qv _
      (make_order_err_of_order acc t Action.SELL qv _ (order_make_neg_err t Action.SELL qv hq))]
      at hsell
    exact absurd hsell (by simp)
  · cases hgpt : get_stock_price t with
    | error e =>
      rw [sell_stock_fst_of_mk_err acc acc t qv e
        (make_order_err_of_order acc t Action.SELL qv e
          (order_make_lookup_err t Action.SELL qv e hq hgpt))] at hsell
      exact absurd hsell (by simp)
    | ok p =>
      by_cases hgt : qv > pos.qty
      · rw [sell_stock_fst_of_mk_err acc acc t qv _
          (make_order_sell_err_holdings acc t p qv pos hgpt hq hlk hgt)] at hsell
        exact absurd hsell (by simp)
      · have hq0 : 0 ≤ qv := by omega
        have hmk := make_order_sell_ok acc t p qv pos hgpt hq0 hlk hgt
        cases hnp : get_stock_price pos.ticker with
        | error e =>
          have hfst := execute_order_sell_fst_err_price
            ⟨acc.cash, acc.positions, acc.orders ++ [(⟨t, Action.SELL, qv, p, 0⟩ : Order)],
             acc.trades⟩
            ⟨t, Action.SELL, qv, p, 0⟩ pos e hlk hnp
          have h2 := congrArg Prod.fst hsell
          rw [sell_stock_err_of_execute acc _ t qv _ e hmk hfst] at h2
          exact absurd h2 (by simp)
        | ok np =>
          by_cases hbal : acc.cash + (qv : ℚ) * p < 0
          · have hfst := execute_order_sell_fst_err_balance
              ⟨acc.cash, acc.positions, acc.orders ++ [(⟨t, Action.SELL, qv, p, 0⟩ : Order)],
               acc.trades⟩
              ⟨t, Action.SELL, qv, p, 0⟩ pos np rfl hlk hnp hq0 hbal
            have h2 := congrArg Prod.fst hsell
            rw [sell_stock_err_of_execute acc _ t qv _ _ hmk hfst] at h2
            exact absurd h2 (by simp)
          · by_cases htr : pos.qty - qv > qv
            · rw [sell_stock_trade_capture acc t p np qv pos hgpt hlk hnp hq0 hgt hbal htr]
                at hsell
              exact absurd hsell (by simp)
            · rw [sell_stock_some_ok acc t p np qv pos hgpt hlk hnp hq0 hgt hbal htr] at hsell
              have h2 := congrArg Prod.snd hsell
              dsimp only at h2
              refine ⟨⟨⟨t, Action.SELL, qv, p, qv⟩, pos.price⟩, ?_, rfl⟩
              rw [← h2]

lemma execute_pending_from_zero (acc : Account) (i : Nat) :
    acc.execute_pending_from i 0 = (none, acc) := rfl

lemma execute_pending_from_succ (acc : Account) (i fuel : Nat) (hi : i < acc.orders.length) :
    acc.execute_pending_from i (fuel + 1)
      = (match acc.execute_order_at i with
         | (some e, acc3) => (some e, acc3)
         | (none, acc3) => acc3.execute_pending_from (i + 1) fuel) := by
  rw [Account.execute_pending_from, if_pos hi]

end TradePathLemmas

section CashLemmas

lemma cash_op_keeps_nonneg (acc : Account) (op : CashOp) (h : 0 ≤ acc.cash) :
    0 ≤ ((acc.apply_cash_op op).2).cash := by
  cases op with
  | dep a =>
    simp only [Account.apply_cash_op]
    rw [Account.deposit]
    by_cases ha : a < 0
    · rw [if_pos ha]; exact h
    · rw [if_neg ha, Account.set_balance]
      by_cases hb : Account.balance acc + a < 0
      · rw [if_pos hb]; exact h
      · rw [if_neg hb]
        exact not_lt.mp hb
  | wdr a =>
    simp only [Account.apply_cash_op]
    rw [Account.withdraw]
    by_cases h1 : a > Account.balance acc
    · rw [if_pos h1]; exact h
    · rw [if_neg h1]
      by_cases h2 : a < 0
      · rw [if_pos h2]; exact h
      · rw [if_neg h2, Account.set_balance]
        by_cases hb : Account.balance acc - a < 0
        · rw [if_pos hb]; exact h
        · rw [if_neg hb]
          exact not_lt.mp hb

lemma run_cash_ops_nonneg (ops : List CashOp) (acc : Account) (h : 0 ≤ acc.cash) :
    0 ≤ (acc.run_cash_ops ops).cash := by
  induction ops generalizing acc with
  | nil => simpa [Account.run_cash_ops] using h
  | cons op rest ih =>
    rw [Account.run_cash_ops, List.foldl_cons]
    exact ih ((acc.apply_cash_op op).2) (cash_op_keeps_nonneg acc op h)

end CashLemmas

/-- C1: the spec requires every mutating operation to be atomic: on error the
account state must be exactly what it was before the call.  The code violates
this: place a BUY order for 1 AAPL (price 200) with balance 200, withdraw
100, then run `execute_pending_orders`.  The execution raises the
negative-balance `ValueError`, but only after `setdefault` created and
`update_from_order` mutated the AAPL position and marked the order filled:
the post-error account differs from the pre-call one. -/
theorem C1_execute_order_mutates_despite_error :
    Account.make 200 = .ok c1_acc0 ∧
    c1_acc0.make_order "AAPL" Action.BUY 1
      = (.ok ⟨"AAPL", Action.BUY, 1, 200, 0⟩, c1_acc1) ∧
    c1_acc1.withdraw 100 = (none, c1_acc2) ∧
    c1_acc2.positions = [] ∧ c1_acc2.orders.map Order.filled = [0] ∧
    c1_acc2.execute_pending_orders = (some (Err.valueError "negative balance"), c1_acc3) ∧
    c1_acc3 ≠ c1_acc2 := by
  have hmk : c1_acc0.make_order "AAPL" Action.BUY 1
      = (.ok ⟨"AAPL", Action.BUY, 1, 200, 0⟩, c1_acc1) := by
    have h := make_order_buy_ok c1_acc0 "AAPL" 200 1 rfl (by decide)
      (by push_cast; norm_num [c1_acc0])
    rw [h]
    norm_num [c1_acc0, c1_acc1]
  have hwd : c1_acc1.withdraw 100 = (none, c1_acc2) := by
    rw [Account.withdraw,
      if_neg (show ¬ (100 : ℚ) > Account.balance c1_acc1 from by
        norm_num [Account.balance, c1_acc1]),
      if_neg (show ¬ (100 : ℚ) < 0 from by norm_num),
      Account.set_balance,
      if_neg (show ¬ Account.balance c1_acc1 - 100 < 0 from by
        norm_num [Account.balance, c1_acc1])]
    norm_num [Account.balance, c1_acc1, c1_acc2]
  have hexe : c1_acc2.execute_order ⟨"AAPL", Action.BUY, 1, 200, 0⟩
      = (some (Err.valueError "negative balance"),
         ⟨100, [("AAPL", ⟨"AAPL", 1, 200⟩)], [⟨"AAPL", Action.BUY, 1, 200, 0⟩], []⟩,
         ⟨"AAPL", Action.BUY, 1, 200, 1⟩) := by
    have h := execute_order_buy_new_err_balance c1_acc2 ⟨"AAPL", Action.BUY, 1, 200, 0⟩ 200
      rfl rfl rfl (by decide) (by push_cast; norm_num [c1_acc2])
    rw [h]
    norm_num [c1_acc2, Order.fill_all]
  have hat : c1_acc2.execute_order_at 0 = (some (Err.valueError "negative balance"), c1_acc3) := by
    rw [Account.execute_order_at.eq_def,
      show c1_acc2.orders[0]? = some ⟨"AAPL", Action.BUY, 1, 200, 0⟩ from rfl]
    dsimp only
    rw [hexe]
    norm_num [c1_acc3]
  have hpend : c1_acc2.execute_pending_orders
      = (some (Err.valueError "negative balance"), c1_acc3) := by
    rw [Account.execute_pending_orders,
      show c1_acc2.orders.length = 0 + 1 from rfl,
      execute_pending_from_succ c1_acc2 0 0 (by decide), hat]
  exact ⟨by norm_num [Account.make, c1_acc0], hmk, hwd, rfl, rfl, hpend,
    by simp [c1_acc2, c1_acc3]⟩

/-- C2: the claim that `sell_stock(t, q)` succeeds for every `0 < q ≤ h` is
violated: with 3 AAPL held (bought through the public API), selling 1 raises
the `Trade` constructor's `ValueError` (its check `position.qty >
order.amount` is evaluated against the position AFTER the sell was applied,
`2 > 1`), and it raises only after the position, order and cash were
mutated, so no Trade is recorded and the mutations persist. -/
theorem C2_partial_sell_raises_after_mutation :
    (⟨1000, [], [], []⟩ : Account).buy_stock "AAPL" (some 3) = (none, c2_acc) ∧
    c2_acc.cash = 400 ∧
    lookup_ticker c2_acc.positions "AAPL" = some ⟨"AAPL", 3, 200⟩ ∧
    c2_acc.sell_stock "AAPL" (some 1) = (some (Err.valueError "trade capture"), c2_after) ∧
    lookup_ticker c2_after.positions "AAPL" = some ⟨"AAPL", 2, 200⟩ ∧
    c2_after.cash = 600 ∧
    c2_after.trades = [] := by
  have hbuy : (⟨1000, [], [], []⟩ : Account).buy_stock "AAPL" (some 3) = (none, c2_acc) := by
    have h := buy_stock_new_ok ⟨1000, [], [], []⟩ "AAPL" 200 3 rfl rfl (by decide)
      (by push_cast; norm_num)
    rw [h]
    norm_num [c2_acc]
  have hsellres : c2_acc.sell_stock "AAPL" (some 1)
      = (some (Err.valueError "trade capture"), c2_after) := by
    have h := sell_stock_trade_capture c2_acc "AAPL" 200 200 1 ⟨"AAPL", 3, 200⟩
      rfl rfl rfl (by decide) (by decide) (by push_cast; norm_num [c2_acc]) (by decide)
    rw [h]
    norm_num [c2_acc, c2_after, set_position]
  exact ⟨hbuy, rfl, rfl, hsellres, rfl, rfl, rfl⟩

/-- C3: every successful `sell_stock(t, q)` on an account holding `t`
appends exactly one Trade whose `entry_price` equals the position's average
price immediately before the sell order was applied.  (A sell never changes
`Position.price`, so the snapshot the code takes after `execute_order`
coincides with the pre-mutation average price.) -/
theorem C3_sell_trade_entry_price (acc acc2 : Account) (t : String) (q : Option Int)
    (pos : Position)
    (hlk : lookup_ticker acc.positions t = some pos)
    (hsell : acc.sell_stock t q = (none, acc2)) :
    ∃ tr : Trade, acc2.trades = acc.trades ++ [tr] ∧ tr.entry_price = pos.price := by
  cases q with
  | some qv => exact sell_stock_success_inv acc acc2 t qv pos hlk hsell
  | none =>
    rw [sell_stock_none_eq acc t pos hlk] at hsell
    exact sell_stock_success_inv acc acc2 t pos.qty pos hlk hsell

/-- C3 witness: a concrete successful sell (1 share held at average price
150, current price 200) records a Trade with entry price 150. -/
theorem C3_sell_trade_entry_price_witness :
    ∃ tr : Trade,
      (⟨200, [("AAPL", ⟨"AAPL", 0, 150⟩)], [⟨"AAPL", Action.SELL, 1, 200, 1⟩],
        [⟨⟨"AAPL", Action.SELL, 1, 200, 1⟩, 150⟩]⟩ : Account).trades
        = ([] : List Trade) ++ [tr] ∧
      tr.entry_price = 150 := by
  have hsell : (⟨0, [("AAPL", ⟨"AAPL", 1, 150⟩)], [], []⟩ : Account).sell_stock "AAPL" (some 1)
      = (none,
         ⟨200, [("AAPL", ⟨"AAPL", 0, 150⟩)], [⟨"AAPL", Action.SELL, 1, 200, 1⟩],
          [⟨⟨"AAPL", Action.SELL, 1, 200, 1⟩, 150⟩]⟩) := by
    have h := sell_stock_some_ok ⟨0, [("AAPL", ⟨"AAPL", 1, 150⟩)], [], []⟩ "AAPL" 200 200 1
      ⟨"AAPL", 1, 150⟩ rfl rfl rfl (by decide) (by decide) (by push_cast; norm_num) (by decide)
    rw [h]
    norm_num [set_position]
  exact C3_sell_trade_entry_price ⟨0, [("AAPL", ⟨"AAPL", 1, 150⟩)], [], []⟩ _ "AAPL" (some 1)
    ⟨"AAPL", 1, 150⟩ rfl hsell

/-- C4: an account constructed with a non-negative starting balance has a
non-negative balance after every sequence of deposits and withdrawals
(successful or failing), and any `withdraw a` with `a > balance` or `a < 0`
raises and leaves the account unchanged. -/
theorem C4_balance_never_negative (b : ℚ) (acc : Account) (ops : List CashOp)
    (hmk : Account.make b = .ok acc) :
    0 ≤ (acc.run_cash_ops ops).cash ∧
    (∀ (acc3 : Account) (a : ℚ), (a > acc3.balance ∨ a < 0) →
      (acc3.withdraw a).1.isSome = true ∧ (acc3.withdraw a).2 = acc3) := by
  constructor
  · have hacc : acc = ⟨b, [], [], []⟩ ∧ 0 ≤ b := by
      rw [Account.make] at hmk
      by_cases h : b < 0
      · rw [if_pos h] at hmk
        exact absurd hmk (by simp)
      · rw [if_neg h, if_neg h] at hmk
        simp only [Except.ok.injEq] at hmk
        exact ⟨hmk.symm, not_lt.mp h⟩
    obtain ⟨h1, h2⟩ := hacc
    subst h1
    exact run_cash_ops_nonneg ops _ h2
  · intro acc3 a ha
    rw [Account.withdraw]
    rcases ha with h1 | h2
    · rw [if_pos h1]
      exact ⟨rfl, rfl⟩
    · by_cases h1 : a > acc3.balance
      · rw [if_pos h1]
        exact ⟨rfl, rfl⟩
      · rw [if_neg h1, if_pos h2]
        exact ⟨rfl, rfl⟩

/-- C4 witness at starting balance 5, one overdraw attempt of 3, and a
withdrawal of 10 from balance 5. -/
theorem C4_balance_never_negative_witness :
    0 ≤ ((Account.mk 5 [] [] []).run_cash_ops [CashOp.wdr 3]).cash ∧
    ((Account.mk 5 [] [] []).withdraw 10).1.isSome = true ∧
    ((Account.mk 5 [] [] []).withdraw 10).2 = Account.mk 5 [] [] [] := by
  have h := C4_balance_never_negative 5 (Account.mk 5 [] [] []) [CashOp.wdr 3] (by rfl)
  refine ⟨h.1, ?_, ?_⟩
  · exact (h.2 (Account.mk 5 [] [] []) 10 (Or.inl (by norm_num [Account.balance]))).1
  · exact (h.2 (Account.mk 5 [] [] []) 10 (Or.inl (by norm_num [Account.balance]))).2

/-- C5: `make_order` validates before persisting anything: a BUY whose cost
exceeds the balance fails with the insufficient-funds error, a SELL with no
position fails with `KeyError`, a SELL for more than the held quantity fails
with the insufficient-holdings error, each failure leaving the account
unchanged; on success exactly one new order with `filled = 0` is appended
and returned. -/
theorem C5_make_order_validates (acc : Account) (t : String) (p : ℚ) (q : Int)
    (hp : get_stock_price t = .ok p) (hq : 0 ≤ q) :
    ((q : ℚ) * p > acc.cash →
      acc.make_order t Action.BUY q = (.error (Err.valueError "insufficient funds"), acc)) ∧
    (lookup_ticker acc.positions t = none →
      acc.make_order t Action.SELL q = (.error (Err.keyError t), acc)) ∧
    (∀ pos : Position, lookup_ticker acc.positions t = some pos → q > pos.qty →
      acc.make_order t Action.SELL q
        = (.error (Err.valueError "insufficient holdings"), acc)) ∧
    ((q : ℚ) * p ≤ acc.cash →
      acc.make_order t Action.BUY q
        = (.ok ⟨t, Action.BUY, q, p, 0⟩,
           { acc with orders := acc.orders ++ [⟨t, Action.BUY, q, p, 0⟩] })) ∧
    (∀ pos : Position, lookup_ticker acc.positions t = some pos → q ≤ pos.qty →
      acc.make_order t Action.SELL q
        = (.ok ⟨t, Action.SELL, q, p, 0⟩,
           { acc with orders := acc.orders ++ [⟨t, Action.SELL, q, p, 0⟩] })) := by
  have hnq : ¬ q < 0 := by omega
  exact ⟨fun h => make_order_buy_err_funds acc t p q hp hnq h,
         fun h => make_order_sell_err_nopos acc t p q hp hnq h,
         fun pos hlk hgt => make_order_sell_err_holdings acc t p q pos hp hnq hlk hgt,
         fun h => make_order_buy_ok acc t p q hp hq (not_lt.mpr h),
         fun pos hlk hle => make_order_sell_ok acc t p q pos hp hq hlk (not_lt.mpr hle)⟩

/-- C5 witness: with balance 100, a BUY of 1 AAPL (cost 200) fails with the
insufficient-funds error and leaves the account unchanged. -/
theorem C5_make_order_validates_witness :
    (Account.mk 100 [] [] []).make_order "AAPL" Action.BUY 1
      = (.error (Err.valueError "insufficient funds"), Account.mk 100 [] [] []) := by
  have h := C5_make_order_validates (Account.mk 100 [] [] []) "AAPL" 200 1 rfl (by norm_num)
  exact h.1 (by norm_num)

/-- C6 counterexample: the claim quantifies over every quantity with
`q * p ≤ b`, which includes `q = 0`; buying 0 shares of AAPL (price 200)
succeeds but creates a position whose average price is 0, not `p`, although
the old quantity was 0. -/
theorem C6_buy_zero_counterexample :
    get_stock_price "AAPL" = .ok 200 ∧
    ((0 : Int) : ℚ) * 200 ≤ 1000 ∧
    (⟨1000, [], [], []⟩ : Account).buy_stock "AAPL" (some 0)
      = (none, ⟨1000, [("AAPL", ⟨"AAPL", 0, 0⟩)], [⟨"AAPL", Action.BUY, 0, 200, 0⟩], []⟩) ∧
    (⟨"AAPL", (0 : Int), (0 : ℚ)⟩ : Position).price ≠ 200 := by
  refine ⟨rfl, by push_cast; norm_num, ?_, by decide⟩
  have h := buy_stock_zero_new_ok ⟨1000, [], [], []⟩ "AAPL" 200 rfl rfl (by norm_num)
  rw [h]
  norm_num

/-- C6 (amended: the bought quantity must be at least 1; for `q = 0` the
average price of a zero-quantity position is left untouched): buying
`q ≥ 1` shares at oracle price `p` with `q * p ≤ balance` succeeds, debits
exactly `q * p`, adds `q` to the position's quantity, and sets the average
price to `p` whenever the old quantity was 0. -/
theorem C6_buy_stock_effect (acc : Account) (t : String) (p oldp : ℚ) (q oldq : Int)
    (hp : get_stock_price t = .ok p)
    (hq : 1 ≤ q)
    (hq0 : 0 ≤ oldq)
    (hpos : (lookup_ticker acc.positions t = none ∧ oldq = 0) ∨
            lookup_ticker acc.positions t = some ⟨t, oldq, oldp⟩)
    (haff : (q : ℚ) * p ≤ acc.cash) :
    (acc.buy_stock t (some q)).1 = none ∧
    (acc.buy_stock t (some q)).2.cash = acc.cash - (q : ℚ) * p ∧
    ∃ pos2 : Position,
      lookup_ticker (acc.buy_stock t (some q)).2.positions t = some pos2 ∧
      pos2.qty = oldq + q ∧
      (oldq = 0 → pos2.price = p) := by
  have hqQ : ((q : Int) : ℚ) ≠ 0 := by
    have : (0 : ℚ) < ((q : Int) : ℚ) := by exact_mod_cast (by omega : (0 : Int) < q)
    linarith
  rcases hpos with ⟨hlk, hq00⟩ | hlk
  · rw [buy_stock_new_ok acc t p q hp hlk hq haff]
    subst hq00
    refine ⟨rfl, rfl, ⟨t, q, p⟩, ?_, (by omega : q = 0 + q), fun _ => rfl⟩
    rw [lookup_append_none hlk]
    simp [lookup_ticker]
  · rw [buy_stock_pos_ok acc t p p q ⟨t, oldq, oldp⟩ hp hlk hp hq hq0 haff]
    refine ⟨rfl, rfl,
      ⟨t, oldq + q, (((oldq : Int) : ℚ) * oldp + ((q : Int) : ℚ) * p) /
        (((oldq : Int) : ℚ) + ((q : Int) : ℚ))⟩, ?_, rfl, ?_⟩
    · exact lookup_set_self _ hlk
    · intro h0
      subst h0
      push_cast
      rw [zero_mul, zero_add, zero_add]
      exact mul_div_cancel_left₀ p hqQ

/-- C6 witness: buying 1 AAPL at 200 from a fresh account with 1000 cash. -/
theorem C6_buy_stock_effect_witness :
    ((⟨1000, [], [], []⟩ : Account).buy_stock "AAPL" (some 1)).1 = none ∧
    ((⟨1000, [], [], []⟩ : Account).buy_stock "AAPL" (some 1)).2.cash
      = 1000 - ((1 : Int) : ℚ) * 200 ∧
    ∃ pos2 : Position,
      lookup_ticker ((⟨1000, [], [], []⟩ : Account).buy_stock "AAPL" (some 1)).2.positions "AAPL"
        = some pos2 ∧
      pos2.qty = 0 + 1 ∧
      ((0 : Int) = 0 → pos2.price = 200) :=
  C6_buy_stock_effect ⟨1000, [], [], []⟩ "AAPL" 200 0 1 0 rfl (by decide) (by decide)
    (Or.inl ⟨rfl, rfl⟩) (by push_cast; norm_num)

/-- C7 counterexample: the claim quantifies over every account; on an
account that already holds 1 AAPL, buying 1 and then selling 1 (price
unchanged) leaves the position at quantity 1, not 0. -/
theorem C7_round_trip_counterexample :
    (⟨10000, [], [], []⟩ : Account).buy_stock "AAPL" (some 1)
      = (none, ⟨9800, [("AAPL", ⟨"AAPL", 1, 200⟩)], [⟨"AAPL", Action.BUY, 1, 200, 1⟩], []⟩) ∧
    (⟨9800, [("AAPL", ⟨"AAPL", 1, 200⟩)], [⟨"AAPL", Action.BUY, 1, 200, 1⟩],
      []⟩ : Account).buy_stock "AAPL" (some 1)
      = (none, ⟨9600, [("AAPL", ⟨"AAPL", 2, 200⟩)],
                [⟨"AAPL", Action.BUY, 1, 200, 1⟩, ⟨"AAPL", Action.BUY, 1, 200, 1⟩], []⟩) ∧
    (⟨9600, [("AAPL", ⟨"AAPL", 2, 200⟩)],
      [⟨"AAPL", Action.BUY, 1, 200, 1⟩, ⟨"AAPL", Action.BUY, 1, 200, 1⟩],
      []⟩ : Account).sell_stock "AAPL" (some 1)
      = (none, ⟨9800, [("AAPL", ⟨"AAPL", 1, 200⟩)],
                [⟨"AAPL", Action.BUY, 1, 200, 1⟩, ⟨"AAPL", Action.BUY, 1, 200, 1⟩,
                 ⟨"AAPL", Action.SELL, 1, 200, 1⟩],
                [⟨⟨"AAPL", Action.SELL, 1, 200, 1⟩, 200⟩]⟩) ∧
    (1 : Int) ≠ 0 := by
  refine ⟨?_, ?_, ?_, by decide⟩
  · have h := buy_stock_new_ok ⟨10000, [], [], []⟩ "AAPL" 200 1 rfl rfl (by decide)
      (by push_cast; norm_num)
    rw [h]
    norm_num
  · have h := buy_stock_pos_ok ⟨9800, [("AAPL", ⟨"AAPL", 1, 200⟩)],
      [⟨"AAPL", Action.BUY, 1, 200, 1⟩], []⟩ "AAPL" 200 200 1 ⟨"AAPL", 1, 200⟩
      rfl rfl rfl (by decide) (by decide) (by push_cast; norm_num)
    rw [h]
    norm_num [set_position]
  · have h := sell_stock_some_ok ⟨9600, [("AAPL", ⟨"AAPL", 2, 200⟩)],
      [⟨"AAPL", Action.BUY, 1, 200, 1⟩, ⟨"AAPL", Action.BUY, 1, 200, 1⟩], []⟩ "AAPL" 200 200 1
      ⟨"AAPL", 2, 200⟩ rfl rfl rfl (by decide) (by decide) (by push_cast; norm_num) (by decide)
    rw [h]
    norm_num [set_position]

/-- C7 (amended: the account must hold no prior Position in the ticker, and
`realized_pnl` is read off the single appended Trade — with a pre-existing
position the final quantity equals the prior holding, not 0): buying an
affordable `q ≥ 1` and immediately selling `q` with the price table
unchanged appends one Trade with realized pnl 0, leaves the position at
quantity 0, and restores the balance to its pre-buy value. -/
theorem C7_round_trip (acc : Account) (t : String) (p : ℚ) (q : Int)
    (hp : get_stock_price t = .ok p)
    (hlk : lookup_ticker acc.positions t = none)
    (hq : 1 ≤ q)
    (haff : (q : ℚ) * p ≤ acc.cash)
    (hc0 : 0 ≤ acc.cash) :
    (acc.buy_stock t (some q)).1 = none ∧
    ((acc.buy_stock t (some q)).2.sell_stock t (some q)).1 = none ∧
    (∃ tr : Trade,
      ((acc.buy_stock t (some q)).2.sell_stock t (some q)).2.trades = acc.trades ++ [tr] ∧
      tr.realized_pnl = 0) ∧
    (∃ pos2 : Position,
      lookup_ticker ((acc.buy_stock t (some q)).2.sell_stock t (some q)).2.positions t
        = some pos2 ∧ pos2.qty = 0) ∧
    ((acc.buy_stock t (some q)).2.sell_stock t (some q)).2.cash = acc.cash := by
  have hq' : 0 ≤ q := by omega
  rw [buy_stock_new_ok acc t p q hp hlk hq haff]
  have hlk1 : lookup_ticker (acc.positions ++ [(t, ⟨t, q, p⟩)]) t = some ⟨t, q, p⟩ := by
    rw [lookup_append_none hlk]
    simp [lookup_ticker]
  have hbal : ¬ (⟨acc.cash - (q : ℚ) * p, acc.positions ++ [(t, ⟨t, q, p⟩)],
      acc.orders ++ [⟨t, Action.BUY, q, p, q⟩], acc.trades⟩ : Account).cash
        + (q : ℚ) * p < 0 := by
    have hcc : acc.cash - (q : ℚ) * p + (q : ℚ) * p = acc.cash := by ring
    show ¬ acc.cash - (q : ℚ) * p + (q : ℚ) * p < 0
    rw [hcc]
    exact not_lt.mpr hc0
  have hsell := sell_stock_some_ok
    ⟨acc.cash - (q : ℚ) * p, acc.positions ++ [(t, ⟨t, q, p⟩)],
     acc.orders ++ [⟨t, Action.BUY, q, p, q⟩], acc.trades⟩ t p p q ⟨t, q, p⟩
    hp hlk1 hp hq' (show ¬ q > q from by omega) hbal (show ¬ q - q > q from by omega)
  rw [hsell]
  refine ⟨rfl, rfl,
    ⟨⟨⟨t, Action.SELL, q, p, q⟩, p⟩, rfl, by simp [Trade.realized_pnl]⟩,
    ⟨⟨t, q - q, p⟩, lookup_set_self _ hlk1, (by omega : q - q = 0)⟩, ?_⟩
  show acc.cash - (q : ℚ) * p + (q : ℚ) * p = acc.cash
  ring

/-- C7 witness: round trip of 1 AAPL on a fresh account with 1000 cash. -/
theorem C7_round_trip_witness :
    ((⟨1000, [], [], []⟩ : Account).buy_stock "AAPL" (some 1)).1 = none ∧
    (((⟨1000, [], [], []⟩ : Account).buy_stock "AAPL" (some 1)).2.sell_stock "AAPL"
      (some 1)).1 = none ∧
    (∃ tr : Trade,
      (((⟨1000, [], [], []⟩ : Account).buy_stock "AAPL" (some 1)).2.sell_stock "AAPL"
        (some 1)).2.trades = ([] : List Trade) ++ [tr] ∧
      tr.realized_pnl = 0) ∧
    (∃ pos2 : Position,
      lookup_ticker (((⟨1000, [], [], []⟩ : Account).buy_stock "AAPL" (some 1)).2.sell_stock
        "AAPL" (some 1)).2.positions "AAPL" = some pos2 ∧ pos2.qty = 0) ∧
    (((⟨1000, [], [], []⟩ : Account).buy_stock "AAPL" (some 1)).2.sell_stock "AAPL"
      (some 1)).2.cash = 1000 :=
  C7_round_trip ⟨1000, [], [], []⟩ "AAPL" 200 1 rfl rfl (by decide)
    (by push_cast; norm_num) (by norm_num)

/-- C8: `clear_filled_orders` is idempotent; each call keeps exactly the
orders whose status is not FILLED (removing exactly the FILLED ones) and
leaves the trades list, the positions map and the cash balance unchanged. -/
theorem C8_clear_filled_orders_idempotent (acc : Account) :
    (acc.clear_filled_orders).clear_filled_orders = acc.clear_filled_orders ∧
    (∀ o : Order, o ∈ (acc.clear_filled_orders).orders ↔
      (o ∈ acc.orders ∧ o.status ≠ Status.FILLED)) ∧
    (acc.clear_filled_orders).trades = acc.trades ∧
    (acc.clear_filled_orders).positions = acc.positions ∧
    (acc.clear_filled_orders).cash = acc.cash := by
  refine ⟨?_, ?_, rfl, rfl, rfl⟩
  · simp [Account.clear_filled_orders, List.filter_filter]
  · intro o
    simp [Account.clear_filled_orders, List.mem_filter]

/-- C9 counterexample: for a partially filled order (1 of 2 filled,
remaining 1), `update_from_order` changes the position's quantity by the
order's FULL amount (2), not by the remaining amount (1), before marking the
order fully filled. -/
theorem C9_update_from_order_counterexample :
    Order.make "AAPL" Action.BUY 2 = .ok ⟨"AAPL", Action.BUY, 2, 200, 0⟩ ∧
    Order.fill_amount ⟨"AAPL", Action.BUY, 2, 200, 0⟩ 1 = .ok c9_o ∧
    c9_o.remaining = 1 ∧
    Position.update_from_order ⟨"AAPL", 0, 0⟩ c9_o
      = .ok (⟨"AAPL", 2, 200⟩, ⟨"AAPL", Action.BUY, 2, 200, 2⟩) ∧
    (2 : Int) ≠ 0 + 1 := by
  refine ⟨rfl, rfl, by decide, ?_, by decide⟩
  have hdelta : (if c9_o.action = Action.BUY then c9_o.amount else -c9_o.amount) = 2 := rfl
  have hden : ¬ ((((⟨"AAPL", 0, 0⟩ : Position).qty : Int) : ℚ) + ((2 : Int) : ℚ) = 0) := by
    show ¬ (((0 : Int) : ℚ) + ((2 : Int) : ℚ) = 0)
    push_cast
    norm_num
  simp only [Position.update_from_order, hdelta, Position.update,
    show get_stock_price (⟨"AAPL", 0, 0⟩ : Position).ticker = .ok 200 from rfl,
    if_pos (show (0 : Int) < 2 from by decide), if_neg hden]
  norm_num [Order.fill_all, c9_o]

/-- C9 (amended: the signed delta is computed from the order's FULL
requested amount, not from its remaining amount): for every position with
non-negative quantity and every order with non-negative amount over a known
ticker, `update_from_order` adds `amount` for a BUY and subtracts `amount`
for a SELL, and afterwards the order is fully filled. -/
theorem C9_update_from_order_applies_full_amount (pos : Position) (order : Order) (np : ℚ)
    (hp : get_stock_price pos.ticker = .ok np)
    (hq : 0 ≤ pos.qty) (ha : 0 ≤ order.amount) :
    ∃ pos2 : Position,
      pos.update_from_order order = .ok (pos2, order.fill_all) ∧
      pos2.qty = pos.qty + (if order.action = Action.BUY then order.amount else -order.amount) ∧
      (order.fill_all).status = Status.FILLED := by
  have hstat : (order.fill_all).status = Status.FILLED := by
    simp [Order.fill_all, Order.status]
  cases hact : order.action with
  | BUY =>
    have hdelta : (if order.action = Action.BUY then order.amount else -order.amount)
        = order.amount := by rw [hact]; simp
    by_cases h0 : 0 < order.amount
    · have hden : ¬ ((pos.qty : ℚ) + (order.amount : ℚ) = 0) := by
        have h2 : (0 : ℚ) < ((pos.qty + order.amount : Int) : ℚ) := by
          exact_mod_cast (by omega : (0 : Int) < pos.qty + order.amount)
        push_cast at h2
        linarith
      simp only [Position.update_from_order, hdelta, Position.update, hp, if_pos h0,
        if_neg hden]
      exact ⟨_, rfl, rfl, hstat⟩
    · simp only [Position.update_from_order, hdelta, Position.update, hp, if_neg h0]
      exact ⟨_, rfl, rfl, hstat⟩
  | SELL =>
    have hdelta : (if order.action = Action.BUY then order.amount else -order.amount)
        = -order.amount := by rw [hact]; simp
    have hnotpos : ¬ (0 : Int) < -order.amount := by omega
    simp only [Position.update_from_order, hdelta, Position.update, hp, if_neg hnotpos]
    exact ⟨_, rfl, rfl, hstat⟩

/-- C9 witness: a SELL order for 1 share applied to a position of 2. -/
theorem C9_update_from_order_witness :
    ∃ pos2 : Position,
      Position.update_from_order ⟨"AAPL", 2, 200⟩ ⟨"AAPL", Action.SELL, 1, 200, 0⟩
        = .ok (pos2, Order.fill_all ⟨"AAPL", Action.SELL, 1, 200, 0⟩) ∧
      pos2.qty = 2 + (if (⟨"AAPL", Action.SELL, 1, 200, 0⟩ : Order).action = Action.BUY
        then 1 else -1) ∧
      (Order.fill_all ⟨"AAPL", Action.SELL, 1, 200, 0⟩).status = Status.FILLED :=
  C9_update_from_order_applies_full_amount ⟨"AAPL", 2, 200⟩ ⟨"AAPL", Action.SELL, 1, 200, 0⟩
    200 rfl (by decide) (by decide)

/-- C10: on an account whose balance is non-negative but below the oracle
price of a listed ticker, `buy_stock` with the quantity omitted computes
`int(balance / price) = 0` and does not fail: it appends a zero-amount order
that is immediately FILLED, creates a zero-quantity Position for the ticker
if none existed, and leaves the balance and every position quantity
unchanged. -/
theorem C10_buy_default_insufficient_balance (acc : Account) (t : String) (p : ℚ)
    (hp : get_stock_price t = .ok p) (hp0 : 0 < p)
    (hc0 : 0 ≤ acc.cash) (hcp : acc.cash < p)
    (htick : ∀ pos : Position, lookup_ticker acc.positions t = some pos → pos.ticker = t) :
    (acc.buy_stock t none).1 = none ∧
    (acc.buy_stock t none).2.cash = acc.cash ∧
    (∃ o : Order, (acc.buy_stock t none).2.orders = acc.orders ++ [o] ∧
      o.amount = 0 ∧ o.status = Status.FILLED) ∧
    (lookup_ticker acc.positions t = none →
      lookup_ticker (acc.buy_stock t none).2.positions t = some ⟨t, 0, 0⟩) ∧
    (∀ (t2 : String) (pos : Position), lookup_ticker acc.positions t2 = some pos →
      ∃ pos2 : Position, lookup_ticker (acc.buy_stock t none).2.positions t2 = some pos2 ∧
        pos2.qty = pos.qty) := by
  have hpne : ¬ p = 0 := by
    intro h
    rw [h] at hp0
    exact absurd hp0 (by norm_num)
  have hq0 : pyint (Account.balance acc / p) = 0 :=
    pyint_eq_zero (div_nonneg hc0 hp0.le) ((div_lt_one hp0).mpr hcp)
  have hnone : acc.buy_stock t none = acc.buy_stock t (some 0) := by
    rw [buy_stock_none_eq acc t p hp hpne, hq0]
  cases hlk : lookup_ticker acc.positions t with
  | none =>
    rw [hnone, buy_stock_zero_new_ok acc t p hp hlk hc0]
    refine ⟨rfl, rfl, ⟨⟨t, Action.BUY, 0, p, 0⟩, rfl, rfl, rfl⟩, ?_, ?_⟩
    · intro _
      rw [lookup_append_none hlk]
      simp [lookup_ticker]
    · intro t2 pos hlk2
      exact ⟨pos, lookup_append_some hlk2, rfl⟩
  | some pos =>
    have ht := htick pos hlk
    have hnp : get_stock_price pos.ticker = .ok p := by rw [ht]; exact hp
    rw [hnone, buy_stock_zero_pos_ok acc t p p pos hp hlk hnp hc0]
    refine ⟨rfl, rfl, ⟨⟨t, Action.BUY, 0, p, 0⟩, rfl, rfl, rfl⟩, ?_, ?_⟩
    · intro h
      exact Option.noConfusion h
    · intro t2 pos3 hlk2
      by_cases h2 : t2 = t
      · subst h2
        have h3 : pos3 = pos := by
          rw [hlk2] at hlk
          exact Option.some.inj hlk
        subst h3
        exact ⟨pos3, lookup_set_self pos3 hlk2, rfl⟩
      · exact ⟨pos3, by rw [lookup_set_other _ h2]; exact hlk2, rfl⟩

/-- C10 witness: a fresh account with 150 cash, AAPL at 200. -/
theorem C10_buy_default_insufficient_balance_witness :
    ((⟨150, [], [], []⟩ : Account).buy_stock "AAPL" none).1 = none ∧
    ((⟨150, [], [], []⟩ : Account).buy_stock "AAPL" none).2.cash = 150 ∧
    (∃ o : Order,
      ((⟨150, [], [], []⟩ : Account).buy_stock "AAPL" none).2.orders = ([] : List Order) ++ [o] ∧
      o.amount = 0 ∧ o.status = Status.FILLED) ∧
    (lookup_ticker ([] : List (String × Position)) "AAPL" = none →
      lookup_ticker ((⟨150, [], [], []⟩ : Account).buy_stock "AAPL" none).2.positions "AAPL"
        = some ⟨"AAPL", 0, 0⟩) ∧
    (∀ (t2 : String) (pos : Position),
      lookup_ticker ([] : List (String × Position)) t2 = some pos →
      ∃ pos2 : Position,
        lookup_ticker ((⟨150, [], [], []⟩ : Account).buy_stock "AAPL" none).2.positions t2
          = some pos2 ∧ pos2.qty = pos.qty) :=
  C10_buy_default_insufficient_balance ⟨150, [], [], []⟩ "AAPL" 200 rfl (by norm_num)
    (by norm_num) (by norm_num) (fun pos h => by simp [lookup_ticker] at h)

end TradingSim
